import Mathlib

/-!
Verification of `src/rlpyt_algos.py` (SPR repository): the categorical
(C51-style) distributional DQN loss with a latent transition-model rollout.

Conventions of the shallow embedding:
* torch tensors are modelled as index maps (`ℕ → ℚ`, batched tensors as
  `ℕ → ℕ → ℚ`, ...); machine floats are modelled by exact rationals, and
  quantities that pass through `torch.log` / `torch.exp` live in `ℝ`;
* elementwise tensor operations are modelled pointwise; shapes are carried
  by the configuration (`nAtoms`, `batchB`, `numActions`) and sums are taken
  over `Finset.range` of the relevant extent;
* Python failures that the claims are about (unresolved names, missing
  attributes) are modelled explicitly with an `Except` monad whose
  environment of bound names comes from the module source; all other tensor
  operations are modelled as total functions.
-/

namespace SPR

/-- Semantics of `torch.clamp(x, lo, hi)` on rationals: `min(max(x, lo), hi)`. -/
def tclamp (x lo hi : ℚ) : ℚ := min (max x lo) hi

/-- Semantics of `torch.clamp(x, lo, hi)` on reals. -/
noncomputable def tclampR (x lo hi : ℝ) : ℝ := min (max x lo) hi

/-- The constant `EPS = 1e-6`, the NaN guard of `rlpyt_algos.py` (line 17). -/
def EPS : ℚ := 1 / 1000000

/-- Indicator cast of a termination flag, `done.float()`. -/
def indQ (b : Bool) : ℚ := if b then 1 else 0

/-- Semantics of `torch.argmax` over the first `n` indices (index of the first maximal
value, mirroring torch's first-occurrence tie-breaking). -/
def argmaxIdx (n : ℕ) (f : ℕ → ℚ) : ℕ :=
  (List.range n).foldl (fun b a => if f b < f a then a else b) 0

/-- Semantics of `rlpyt.algos.utils.valid_from_done` applied to a vector of termination
flags: `valid[0] = 1`, and for `t ≥ 1`,
`valid[t] = 1 - clamp(cumsum(done[:-1])[t-1], max=1)`. -/
def valid_from_done (done : ℕ → Bool) : ℕ → ℚ :=
  fun t => if t = 0 then 1 else 1 - min 1 (∑ s in Finset.range t, indQ (done s))

/-- Semantics of `rlpyt.utils.tensor.valid_mean`: `(x * valid).sum() / valid.sum()`
over a batch of size `B`. -/
noncomputable def validMean (B : ℕ) (x : ℕ → ℝ) (v : ℕ → ℚ) : ℝ :=
  (∑ b in Finset.range B, x b * (v b : ℝ)) / (∑ b in Finset.range B, ((v b : ℚ) : ℝ))

/-- The algorithm configuration: the section-6 configuration surface of the
spec, as consumed by `PizeroCategoricalDQN` / `PizeroModelCategoricalDQN`. -/
structure AlgoCfg where
  Vmin : ℚ
  Vmax : ℚ
  nAtoms : ℕ
  discount : ℚ
  nStepReturn : ℕ
  jumps : ℕ
  doubleDQN : Bool
  prioritizedReplay : Bool
  midBatchReset : Bool
  detachModel : Bool
  batchB : ℕ
  numActions : ℕ
  batchSize : ℕ
  updatesPerOptimize : ℕ
  minItrLearn : ℕ
  targetUpdateInterval : ℕ

/-- The bin width `delta_z = (V_max - V_min) / (n_atoms - 1)` (lines 66 and 196). -/
def deltaZ (cfg : AlgoCfg) : ℚ := (cfg.Vmax - cfg.Vmin) / ((cfg.nAtoms : ℚ) - 1)

/-- The support `z = torch.linspace(V_min, V_max, n_atoms)`: atom `i` of the fixed
support, `V_min + i * delta_z`. -/
def zAtom (cfg : AlgoCfg) (i : ℕ) : ℚ := cfg.Vmin + i * deltaZ cfg

/-- One entry of the shifted source support for a batch element
(lines 70-73 / 200-203): `clamp(ret + (1 - done_n) * (z[j] * discount ^ n_step),
V_min, V_max)`. -/
def shiftedSupport (cfg : AlgoCfg) (dn : Bool) (ret : ℚ) (j : ℕ) : ℚ :=
  tclamp (ret + (1 - indQ dn) * (zAtom cfg j * cfg.discount ^ cfg.nStepReturn))
    cfg.Vmin cfg.Vmax

/-- One projection coefficient (lines 77-78 / 207-208):
`clamp(1 - |s - z_i| / delta_z, 0, 1)`. -/
def projCoeff (cfg : AlgoCfg) (s zi : ℚ) : ℚ := tclamp (1 - |s - zi| / deltaZ cfg) 0 1

/-- The projection of an unprojected target distribution onto the fixed
support for one batch element (line 99 / 229):
`target_p[i] = sum_j coeff(shifted[j], z[i]) * unproj[j]`. -/
def projectDist (cfg : AlgoCfg) (dn : Bool) (ret : ℚ) (unproj : ℕ → ℚ) : ℕ → ℚ :=
  fun i => ∑ j in Finset.range cfg.nAtoms,
    projCoeff cfg (shiftedSupport cfg dn ret j) (zAtom cfg i) * unproj j

/-- The Q-value `Q(s) = tensordot(P(s), z)` of one action distribution
(lines 92, 95 / 222, 225). -/
def qValueOf (cfg : AlgoCfg) (dist : ℕ → ℚ) : ℚ :=
  ∑ p in Finset.range cfg.nAtoms, dist p * zAtom cfg p

/-- A replay sample batch (the spec's Transition Sequence Sample): every
per-offset field is indexed first by the time offset into the sequence and
then by the batch element.  `is_weights` is the per-batch-element
importance-sampling weight vector. -/
structure Samples (Obs : Type) where
  all_observation : ℕ → ℕ → Obs
  all_action : ℕ → ℕ → ℕ
  all_reward : ℕ → ℕ → ℚ
  return_ : ℕ → ℕ → ℚ
  done : ℕ → ℕ → Bool
  done_n : ℕ → ℕ → Bool
  is_weights : ℕ → ℚ

/-- The agent contract of spec section 6, as consumed by the loss code.
Networks are modelled per batch element: a forward pass maps one
observation (or latent), the previous action and previous reward to a
probability value per `(action, atom)` pair. -/
structure AgentModel (Obs Latent : Type) where
  forwardLive : Obs → ℕ → ℚ → ℕ → ℕ → ℚ
  forwardTarget : Obs → ℕ → ℚ → ℕ → ℕ → ℚ
  stemForward : Obs → ℕ → ℚ → Latent
  headForward : Latent → ℕ → ℚ → ℕ → ℕ → ℚ
  step : Latent → ℕ → Latent × (ℕ → ℚ)
  rewardPredictor : Latent → ℕ → ℚ

/-! ### The single-step RL loss (lines 58-122 and 191-250)

`PizeroCategoricalDQN.loss` and `PizeroModelCategoricalDQN.rl_loss` share
their body verbatim apart from how the three network forwards are obtained;
the shared body is embedded once, as a composition of named stages. -/

/-- Next-action selection (lines 88-96 / 218-226): argmax of the live
network's Q-values under `double_dqn`, of the target network's otherwise. -/
def coreNextA (cfg : AlgoCfg) (tps nps : ℕ → ℕ → ℕ → ℚ) : ℕ → ℕ := fun b =>
  if cfg.doubleDQN then argmaxIdx cfg.numActions (fun a => qValueOf cfg (nps b a))
  else argmaxIdx cfg.numActions (fun a => qValueOf cfg (tps b a))

/-- The projected target distribution (lines 97-99 / 227-229): the target
network's distribution at the selected next action, pushed through the
projection.  In the source this block sits inside `torch.no_grad()`. -/
def coreTargetP (cfg : AlgoCfg) (tps nps : ℕ → ℕ → ℕ → ℚ)
    (ret : ℕ → ℚ) (dn : ℕ → Bool) : ℕ → ℕ → ℚ := fun b =>
  projectDist cfg (dn b) (ret b) (fun j => tps b (coreNextA cfg tps nps b) j)

/-- The clamped live prediction at the action taken (lines 103-104 / 231-232):
`p = clamp(ps[action], EPS, 1)`. -/
def coreLiveP (cfg : AlgoCfg) (ps : ℕ → ℕ → ℕ → ℚ) (action : ℕ → ℕ) :
    ℕ → ℕ → ℚ := fun b i => tclamp (ps b (action b) i) EPS 1

/-- Per-sample cross-entropy (line 105 / 233):
`losses[b] = -sum_i target_p[b,i] * log(p[b,i])` (with `p` already clamped,
`target_p` not yet clamped). -/
noncomputable def ceLosses (cfg : AlgoCfg) (target_p p : ℕ → ℕ → ℚ) : ℕ → ℝ :=
  fun b => -(∑ i in Finset.range cfg.nAtoms, (target_p b i : ℝ) * Real.log ((p b i : ℚ) : ℝ))

/-- Importance weighting (lines 107-108 / 235-236): under prioritized replay
the per-sample losses are multiplied by the importance weights. -/
noncomputable def weightedCeLosses (cfg : AlgoCfg) (isw : ℕ → ℚ) (target_p p : ℕ → ℕ → ℚ) :
    ℕ → ℝ :=
  if cfg.prioritizedReplay then fun b => (isw b : ℝ) * ceLosses cfg target_p p b
  else ceLosses cfg target_p p

/-- The KL statistic before its final clamp (lines 110-112 / 238-240): the
target distribution is clamped to `[EPS, 1]` and compared against the
already-clamped live prediction. -/
noncomputable def klStatPre (n : ℕ) (target_p p : ℕ → ℚ) : ℝ :=
  ∑ i in Finset.range n, ((tclamp (target_p i) EPS 1 : ℚ) : ℝ) *
    (Real.log ((tclamp (target_p i) EPS 1 : ℚ) : ℝ) - Real.log ((p i : ℚ) : ℝ))

/-- The clamped KL statistic (line 113 / 241):
`clamp(KL_div, EPS, 1/EPS)`. -/
noncomputable def klStatClamped (n : ℕ) (target_p p : ℕ → ℚ) : ℝ :=
  tclampR (klStatPre n target_p p) ((EPS : ℚ) : ℝ) (1 / ((EPS : ℚ) : ℝ))

/-- Per-batch clamped KL vector of the loss body. -/
noncomputable def klVector (cfg : AlgoCfg) (target_p p : ℕ → ℕ → ℚ) : ℕ → ℝ :=
  fun b => klStatClamped cfg.nAtoms (target_p b) (p b)

/-- Final aggregation (lines 115-121 / 243-248): without `mid_batch_reset`
the losses are averaged over the valid mask derived from the termination
flags and the KL vector is multiplied by the mask; otherwise a plain mean
is taken and the KL vector is returned unmasked. -/
noncomputable def aggregate (cfg : AlgoCfg) (wl kl : ℕ → ℝ) (ds : ℕ → Bool) :
    ℝ × (ℕ → ℝ) :=
  if cfg.midBatchReset then ((∑ b in Finset.range cfg.batchB, wl b) / (cfg.batchB : ℝ), kl)
  else (validMean cfg.batchB wl (valid_from_done ds),
    fun b => kl b * ((valid_from_done ds b : ℚ) : ℝ))

/-- The shared loss body, given the three network forward results
(`tps` = target distributions at the next state, `nps` = live distributions
at the next state, `ps` = live distributions at the current state), the
actions taken, n-step returns and termination flags, the importance weights
and the flag vector handed to `valid_from_done`. -/
noncomputable def rlLossCore (cfg : AlgoCfg) (tps nps ps : ℕ → ℕ → ℕ → ℚ)
    (action : ℕ → ℕ) (ret : ℕ → ℚ) (dn : ℕ → Bool)
    (isw : ℕ → ℚ) (ds : ℕ → Bool) : ℝ × (ℕ → ℝ) :=
  aggregate cfg
    (weightedCeLosses cfg isw (coreTargetP cfg tps nps ret dn) (coreLiveP cfg ps action))
    (klVector cfg (coreTargetP cfg tps nps ret dn) (coreLiveP cfg ps action)) ds

/-- Embedding of `PizeroCategoricalDQN.loss` (lines 58-122): the loss body applied to the
networks evaluated on raw observations; returns `(loss, KL_div)`. -/
noncomputable def catDQNLoss {Obs Latent : Type} (cfg : AlgoCfg)
    (agent : AgentModel Obs Latent) (s : Samples Obs) : ℝ × (ℕ → ℝ) :=
  rlLossCore cfg
    (fun b => agent.forwardTarget (s.all_observation (cfg.nStepReturn + 1) b)
      (s.all_action cfg.nStepReturn b) (s.all_reward cfg.nStepReturn b))
    (fun b => agent.forwardLive (s.all_observation (cfg.nStepReturn + 1) b)
      (s.all_action cfg.nStepReturn b) (s.all_reward cfg.nStepReturn b))
    (fun b => agent.forwardLive (s.all_observation 1 b)
      (s.all_action 0 b) (s.all_reward 0 b))
    (fun b => s.all_action 1 b) (fun b => s.return_ 1 b) (fun b => s.done_n 1 b)
    s.is_weights (fun b => s.done 1 b)

/-- The weighted per-sample losses of `PizeroCategoricalDQN.loss`, named for
use in the masking statements. -/
noncomputable def catWeightedLosses {Obs Latent : Type} (cfg : AlgoCfg)
    (agent : AgentModel Obs Latent) (s : Samples Obs) : ℕ → ℝ :=
  weightedCeLosses cfg s.is_weights
    (coreTargetP cfg
      (fun b => agent.forwardTarget (s.all_observation (cfg.nStepReturn + 1) b)
        (s.all_action cfg.nStepReturn b) (s.all_reward cfg.nStepReturn b))
      (fun b => agent.forwardLive (s.all_observation (cfg.nStepReturn + 1) b)
        (s.all_action cfg.nStepReturn b) (s.all_reward cfg.nStepReturn b))
      (fun b => s.return_ 1 b) (fun b => s.done_n 1 b))
    (coreLiveP cfg
      (fun b => agent.forwardLive (s.all_observation 1 b)
        (s.all_action 0 b) (s.all_reward 0 b))
      (fun b => s.all_action 1 b))

/-- The unweighted per-sample cross-entropy losses of
`PizeroCategoricalDQN.loss`. -/
noncomputable def catCeLosses {Obs Latent : Type} (cfg : AlgoCfg)
    (agent : AgentModel Obs Latent) (s : Samples Obs) : ℕ → ℝ :=
  ceLosses cfg
    (coreTargetP cfg
      (fun b => agent.forwardTarget (s.all_observation (cfg.nStepReturn + 1) b)
        (s.all_action cfg.nStepReturn b) (s.all_reward cfg.nStepReturn b))
      (fun b => agent.forwardLive (s.all_observation (cfg.nStepReturn + 1) b)
        (s.all_action cfg.nStepReturn b) (s.all_reward cfg.nStepReturn b))
      (fun b => s.return_ 1 b) (fun b => s.done_n 1 b))
    (coreLiveP cfg
      (fun b => agent.forwardLive (s.all_observation 1 b)
        (s.all_action 0 b) (s.all_reward 0 b))
      (fun b => s.all_action 1 b))

/-- The clamped per-sample KL statistics of `PizeroCategoricalDQN.loss`
before masking. -/
noncomputable def catKlClamped {Obs Latent : Type} (cfg : AlgoCfg)
    (agent : AgentModel Obs Latent) (s : Samples Obs) : ℕ → ℝ :=
  klVector cfg
    (coreTargetP cfg
      (fun b => agent.forwardTarget (s.all_observation (cfg.nStepReturn + 1) b)
        (s.all_action cfg.nStepReturn b) (s.all_reward cfg.nStepReturn b))
      (fun b => agent.forwardLive (s.all_observation (cfg.nStepReturn + 1) b)
        (s.all_action cfg.nStepReturn b) (s.all_reward cfg.nStepReturn b))
      (fun b => s.return_ 1 b) (fun b => s.done_n 1 b))
    (coreLiveP cfg
      (fun b => agent.forwardLive (s.all_observation 1 b)
        (s.all_action 0 b) (s.all_reward 0 b))
      (fun b => s.all_action 1 b))

/-! ### The model-augmented loss (`PizeroModelCategoricalDQN`, lines 125-306)

The jump rollout references the names `F` (lines 280 and 299) and
`self.prioritize_replay` (line 293).  Name and attribute resolution are part
of what the claims are about, so they are modelled explicitly: the module's
global bindings are listed from the import block and the module-level
definitions of `rlpyt_algos.py`, and evaluation is carried out in an
`Except` monad that fails exactly where Python raises `NameError` /
`AttributeError`. -/

/-- A modelled Python runtime error. -/
inductive PyErr where
  | nameError : String → PyErr
  | attributeError : String → PyErr
deriving DecidableEq, Repr

/-- The names bound at module level in `rlpyt_algos.py` (lines 1-20 and the
two class statements): the import block plus module-level definitions. -/
def rlpytAlgosGlobals : List String :=
  ["torch", "namedarraytuple", "namedtuple", "CategoricalDQN",
   "select_at_indexes", "valid_mean", "valid_from_done",
   "AsyncPrioritizedSequenceReplayFrameBufferExtended",
   "AsyncUniformSequenceReplayFrameBufferExtended",
   "from_categorical", "to_categorical",
   "SamplesToBuffer", "OptInfo", "EPS",
   "PizeroCategoricalDQN", "PizeroModelCategoricalDQN"]

/-- The local names bound inside the body of
`PizeroModelCategoricalDQN.loss` (parameters and assignment targets,
lines 252-306). -/
def modelLossLocalNames : List String :=
  ["self", "samples", "conv_base", "rl_loss", "KL", "current_latent",
   "reward_target", "pred_rew", "model_loss", "j", "jump_rl_loss"]

/-- Python builtins referenced anywhere in `rlpyt_algos.py`. -/
def pythonBuiltinsUsed : List String :=
  ["abs", "range", "len", "super", "dict", "max"]

/-- Python name resolution inside `PizeroModelCategoricalDQN.loss`:
locals, then module globals, then builtins. -/
def modelLossNameInScope (n : String) : Bool :=
  modelLossLocalNames.contains n || rlpytAlgosGlobals.contains n ||
    pythonBuiltinsUsed.contains n

/-- Modelled from the spec: `to_categorical` lives in `src/model_trainer.py`,
which is not part of the provided sources.  Per spec section 4.3 step 4 it
converts a scalar reward into a categorical target distribution over the
fixed integer reward support `-limit .. limit` (index `i` holds support
point `i - limit`), by the same triangular projection family as section 4.1
with a single-point source of bin width 1: the value is clamped to
`[-limit, limit]` and its mass is split between the two neighbouring
integer support points in proportion to proximity. -/
def to_categorical (value : ℚ) (limit : ℕ) : ℕ → ℚ := fun i =>
  tclamp (1 - |tclamp value (-(limit : ℚ)) (limit : ℚ) - ((i : ℚ) - (limit : ℚ))|) 0 1

/-- The number of atoms of the reward support for `limit`. -/
def rewardSupportSize (limit : ℕ) : ℕ := 2 * limit + 1

/-- Semantics of `F.log_softmax(x, -1)` over the first `n` logits — what the
name `F` would have if `torch.nn.functional` were bound. -/
noncomputable def logSoftmax (n : ℕ) (x : ℕ → ℚ) : ℕ → ℝ := fun i =>
  ((x i : ℚ) : ℝ) - Real.log (∑ j in Finset.range n, Real.exp ((x j : ℚ) : ℝ))

/-- The reward-prediction loss term `-sum(reward_target * log_softmax(pred_rew))`
(lines 280-281 and 299-300), for one batch element; `limit = 1` throughout
the source. -/
noncomputable def rewardPredLoss (target : ℕ → ℚ) (logits : ℕ → ℚ) : ℝ :=
  -(∑ i in Finset.range (rewardSupportSize 1), (target i : ℝ) *
    logSoftmax (rewardSupportSize 1) logits i)

/-- The categorical reward target built in the body of the jump loop
(line 296): `to_categorical(samples.all_reward[0], limit=1)` — the loop
index `j` is in scope but the step-0 reward is used. -/
def jumpRewardTarget {Obs : Type} (s : Samples Obs) (j : ℕ) : ℕ → ℕ → ℚ :=
  fun b => to_categorical (s.all_reward 0 b) 1

/-- Modelled from the spec: the attribute names bound on the algorithm
instance — the section-6 configuration surface (bound by the rlpyt
base-class initializers, which live outside the provided sources) together
with every attribute assigned in `rlpyt_algos.py` itself. -/
def algoAttrNames : List String :=
  ["V_min", "V_max", "discount", "n_step_return", "jumps", "detach_model",
   "double_dqn", "prioritized_replay", "pri_alpha", "pri_beta_init",
   "pri_beta_steps", "mid_batch_reset", "target_update_interval",
   "target_update_tau", "clip_grad_norm", "batch_size",
   "updates_per_optimize", "min_itr_learn", "replay_size", "learning_rate",
   "agent", "replay_buffer", "rank", "optimizer", "model_optimizer",
   "pri_beta_itr", "update_counter", "sampler_bs",
   "initial_optim_state_dict", "OptimCls", "optim_kwargs"]

/-- The importance-weight selection in the jump loop (line 293):
`samples.is_weights if self.prioritize_replay else 1.` — the attribute read
raises `AttributeError` when the name is not bound on the instance. -/
def jumpIsWeights {Obs : Type} (cfg : AlgoCfg) (s : Samples Obs) :
    Except PyErr (ℕ → ℚ) :=
  if algoAttrNames.contains "prioritize_replay" then
    pure (if cfg.prioritizedReplay then s.is_weights else fun _ => 1)
  else .error (.attributeError "prioritize_replay")

/-- Embedding of `PizeroModelCategoricalDQN.rl_loss` (lines 191-250): the shared loss
body applied to the Q-head on a latent state (`head_forward`) and the
live/target networks on the provided next state.  Line 244 hands
`done[1]` — batch element 1 of the passed flag vector — to
`valid_from_done`; the zero-dimensional value is modelled as a constant
batch vector. -/
noncomputable def model_rl_loss {Obs Latent : Type} (cfg : AlgoCfg)
    (agent : AgentModel Obs Latent) (latent : ℕ → Latent)
    (action : ℕ → ℕ) (ret : ℕ → ℚ) (dn : ℕ → Bool)
    (prevA : ℕ → ℕ) (prevR : ℕ → ℚ)
    (nextObs : ℕ → Obs) (nPrevA : ℕ → ℕ) (nPrevR : ℕ → ℚ)
    (isw : ℕ → ℚ) (done : ℕ → Bool) : ℝ × (ℕ → ℝ) :=
  rlLossCore cfg
    (fun b => agent.forwardTarget (nextObs b) (nPrevA b) (nPrevR b))
    (fun b => agent.forwardLive (nextObs b) (nPrevA b) (nPrevR b))
    (fun b => agent.headForward (latent b) (prevA b) (prevR b))
    action ret dn isw (fun _ => done 1)

/-- One iteration of the jump loop (lines 282-301): advance the latent via
the transition model, compute the jump's RL loss, rebuild the reward target
(from the step-0 reward — see `jumpRewardTarget`), re-run the reward
predictor on the advanced latent, and accumulate into `model_loss`.
The second `F.log_softmax` (line 299) resolves by the same scope check the
caller already performed. -/
noncomputable def jumpStep {Obs Latent : Type} (cfg : AlgoCfg)
    (agent : AgentModel Obs Latent) (s : Samples Obs) (j : ℕ)
    (st : (ℕ → Latent) × (ℕ → ℝ)) : Except PyErr ((ℕ → Latent) × (ℕ → ℝ)) := do
  let cl : ℕ → Latent := fun b => (agent.step (st.1 b) (s.all_action (j - 1) b)).1
  let isw ← jumpIsWeights cfg s
  let jump_rl_loss := (model_rl_loss cfg agent cl
    (fun b => s.all_action j b) (fun b => s.return_ j b) (fun b => s.done_n j b)
    (fun b => s.all_action j b) (fun b => s.all_reward j b)
    (fun b => s.all_observation (j + cfg.nStepReturn) b)
    (fun b => s.all_action (j + cfg.nStepReturn - 1) b)
    (fun b => s.all_reward (j + cfg.nStepReturn) b)
    isw (fun b => s.done (j + 1) b)).1
  pure (cl, fun b => st.2 b +
    rewardPredLoss (jumpRewardTarget s j b) (agent.rewardPredictor (cl b)) + jump_rl_loss)

/-- Embedding of `PizeroModelCategoricalDQN.loss` (lines 252-306).  The step-0 RL loss is
computed from the encoder latent; the reward-prediction term then references
the unbound name `F` (line 280), which is resolved against the module scope
before the reward term, the jump loop and the final scaling can produce the
`(rl_loss, KL, model_loss)` triple. -/
noncomputable def modelLoss {Obs Latent : Type} (cfg : AlgoCfg)
    (agent : AgentModel Obs Latent) (s : Samples Obs) :
    Except PyErr (ℝ × (ℕ → ℝ) × (ℕ → ℝ)) :=
  let conv_base : ℕ → Latent := fun b =>
    agent.stemForward (s.all_observation 1 b) (s.all_action 0 b) (s.all_reward 0 b)
  let rlKL := model_rl_loss cfg agent conv_base
    (fun b => s.all_action 1 b) (fun b => s.return_ 1 b) (fun b => s.done_n 1 b)
    (fun b => s.all_action 0 b) (fun b => s.all_reward 0 b)
    (fun b => s.all_observation (cfg.nStepReturn + 1) b)
    (fun b => s.all_action cfg.nStepReturn b)
    (fun b => s.all_reward cfg.nStepReturn b)
    (if cfg.prioritizedReplay then s.is_weights else fun _ => 1)
    (fun b => s.done 1 b)
  let current_latent := conv_base
  if modelLossNameInScope "F" then do
    let model_loss0 : ℕ → ℝ := fun b =>
      rewardPredLoss (to_categorical (s.all_reward 0 b) 1)
        (agent.rewardPredictor (current_latent b))
    let fin ← (List.range' 1 cfg.jumps).foldlM
      (fun st j => jumpStep cfg agent s j st) (current_latent, model_loss0)
    let model_loss : ℕ → ℝ :=
      if cfg.prioritizedReplay then fun b => (s.is_weights b : ℝ) * fin.2 b else fin.2
    pure (rlKL.1, rlKL.2, model_loss)
  else .error (.nameError "F")

/-! ### The optimization driver (`optimize_agent`, lines 141-189)

Side effects are modelled as explicit state: appended buffer batches and
counters for optimizer steps, priority updates, the update counter and
target-network refreshes.  `OptInfo` is the returned triple of lists. -/

/-- The `OptInfo` named tuple (line 14): per-update loss values, gradient
norms and the downsampled absolute TD errors. -/
structure OptInfoT where
  loss : List ℝ
  gradNorm : List ℝ
  tdAbsErr : List ℝ
deriving Inhabited

/-- The observable state the driver mutates: the replay buffer contents
(`SB` is the buffer storage schema) and the effect counters. -/
structure DriverState (SB : Type) where
  bufferAppends : List SB
  priorityUpdates : ℕ
  optimizerSteps : ℕ
  modelOptimizerSteps : ℕ
  updateCounter : ℕ
  targetUpdates : ℕ

/-- The downsample `td_abs_errors[::8]` over a batch of size `B` (line 184). -/
noncomputable def downsample8 (B : ℕ) (td : ℕ → ℝ) : List ℝ :=
  ((List.range B).filter (fun b => b % 8 == 0)).map td

/-- One iteration of the update loop (lines 156-187).  The recorded loss
value is the scalar RL loss; in the joint (non-detached) branch the source
adds the `model_loss` vector into it before `backward()`, a broadcast whose
value is modelled at batch element 0.  Both branches step both optimizers.
Gradient norms are abstract (`gradNormOf`), since gradients are outside the
value-level embedding. -/
noncomputable def optimizeStep {Obs Latent SB : Type} (cfg : AlgoCfg)
    (agent : AgentModel Obs Latent) (sampleBatch : ℕ → Samples Obs)
    (gradNormOf : ℕ → ℝ) (k : ℕ) (st : DriverState SB) (info : OptInfoT) :
    Except PyErr (DriverState SB × OptInfoT) := do
  let samples := sampleBatch k
  let (loss, td_abs_errors, model_loss) ← modelLoss cfg agent samples
  let lossVal : ℝ := if cfg.detachModel then loss else loss + model_loss 0
  let st := { st with
    optimizerSteps := st.optimizerSteps + 1,
    modelOptimizerSteps := st.modelOptimizerSteps + 1 }
  let st := if cfg.prioritizedReplay then
    { st with priorityUpdates := st.priorityUpdates + 1 } else st
  let info := { info with
    loss := info.loss ++ [lossVal],
    gradNorm := info.gradNorm ++ [gradNormOf k],
    tdAbsErr := info.tdAbsErr ++ downsample8 cfg.batchB td_abs_errors }
  let st := { st with updateCounter := st.updateCounter + 1 }
  let st := if st.updateCounter % cfg.targetUpdateInterval == 0 then
    { st with targetUpdates := st.targetUpdates + 1 } else st
  pure (st, info)

/-- The update loop, `for _ in range(updates_per_optimize)`. -/
noncomputable def optimizeLoop {Obs Latent SB : Type} (cfg : AlgoCfg)
    (agent : AgentModel Obs Latent) (sampleBatch : ℕ → Samples Obs)
    (gradNormOf : ℕ → ℝ) (st : DriverState SB) (info : OptInfoT) :
    Except PyErr (DriverState SB × OptInfoT) :=
  (List.range cfg.updatesPerOptimize).foldlM
    (fun p k => optimizeStep cfg agent sampleBatch gradNormOf k p.1 p.2)
    (st, info)

/-- Embedding of `PizeroModelCategoricalDQN.optimize_agent` (lines 141-189): resolve the
effective iteration (`sampler_itr` overrides `itr`), append any new samples
(converted by `samples_to_buffer`) to the replay buffer, return an empty
`OptInfo` before the warm-up threshold `min_itr_learn`, and otherwise run
the update loop. -/
noncomputable def optimizeAgent {Obs Latent SIn SB : Type} (cfg : AlgoCfg)
    (agent : AgentModel Obs Latent) (samplesToBuffer : SIn → SB)
    (sampleBatch : ℕ → Samples Obs) (gradNormOf : ℕ → ℝ)
    (itr : ℕ) (samplerItr : Option ℕ) (newSamples : Option SIn)
    (st : DriverState SB) : Except PyErr (DriverState SB × OptInfoT) :=
  let itr := samplerItr.getD itr
  let st := match newSamples with
    | some ns => { st with bufferAppends := st.bufferAppends ++ [samplesToBuffer ns] }
    | none => st
  let optInfo : OptInfoT := ⟨[], [], []⟩
  if itr < cfg.minItrLearn then pure (st, optInfo)
  else optimizeLoop cfg agent sampleBatch gradNormOf st optInfo

/-! ### Concrete instances used by the witnesses and counterexamples -/

/-- The configuration of the spec's end-to-end scenario:
`V_min = -10`, `V_max = 10`, `n_atoms = 11` (bin width 2), discount `0.99`,
`n_step_return = 1`. -/
def cfgC5 : AlgoCfg :=
  { Vmin := -10, Vmax := 10, nAtoms := 11, discount := 99/100, nStepReturn := 1,
    jumps := 0, doubleDQN := false, prioritizedReplay := false,
    midBatchReset := true, detachModel := true, batchB := 1, numActions := 1,
    batchSize := 1, updatesPerOptimize := 1, minItrLearn := 0,
    targetUpdateInterval := 1 }

/-- A concrete sample batch whose step-0 reward (0) and offset-1 reward (1)
differ. -/
def samplesC2 : Samples Unit :=
  { all_observation := fun _ _ => (), all_action := fun _ _ => 0,
    all_reward := fun t _ => if t = 0 then 0 else 1,
    return_ := fun _ _ => 0, done := fun _ _ => false,
    done_n := fun _ _ => false, is_weights := fun _ => 1 }

/-- A valid distribution with a sub-`EPS`-free profile except for one atom:
`(1 - EPS, EPS)`. -/
def tKL : ℕ → ℚ := fun i => if i = 0 then 1 - EPS else EPS

/-- The one-hot valid distribution `(1, 0)`. -/
def pKL : ℕ → ℚ := fun i => if i = 0 then 1 else 0

/-- A configuration for the C8 witness: two actions, two atoms, double-DQN
enabled. -/
def cfgC8 : AlgoCfg :=
  { Vmin := 0, Vmax := 1, nAtoms := 2, discount := 1, nStepReturn := 1,
    jumps := 0, doubleDQN := true, prioritizedReplay := false,
    midBatchReset := true, detachModel := true, batchB := 1, numActions := 2,
    batchSize := 1, updatesPerOptimize := 1, minItrLearn := 0,
    targetUpdateInterval := 1 }

/-- Target-network distributions for the C8 witness: action 0 is greedy for
the target network. -/
def tpsC8 : ℕ → ℕ → ℕ → ℚ := fun _ a p => if a = 0 then (if p = 1 then 1 else 0) else (if p = 0 then 1 else 0)

/-- Live-network distributions for the C8 witness: action 1 is greedy for
the live network. -/
def npsC8 : ℕ → ℕ → ℕ → ℚ := fun _ a p => if a = 1 then (if p = 1 then 1 else 0) else (if p = 0 then 1 else 0)

/-- A prioritized configuration for the C9 witness. -/
def cfgC9 : AlgoCfg :=
  { Vmin := 0, Vmax := 1, nAtoms := 2, discount := 1, nStepReturn := 1,
    jumps := 0, doubleDQN := false, prioritizedReplay := true,
    midBatchReset := true, detachModel := true, batchB := 1, numActions := 1,
    batchSize := 1, updatesPerOptimize := 1, minItrLearn := 0,
    targetUpdateInterval := 1 }

/-- A trivial agent on unit observation and latent spaces. -/
def agentUnit : AgentModel Unit Unit :=
  { forwardLive := fun _ _ _ _ _ => 1/2, forwardTarget := fun _ _ _ _ _ => 1/2,
    stemForward := fun _ _ _ => (), headForward := fun _ _ _ _ _ => 1/2,
    step := fun _ _ => ((), fun _ => 0), rewardPredictor := fun _ _ => 0 }

/-- A trivial sample batch for the C9 witness. -/
def samplesC9 : Samples Unit :=
  { all_observation := fun _ _ => (), all_action := fun _ _ => 0,
    all_reward := fun _ _ => 0, return_ := fun _ _ => 0,
    done := fun _ _ => false, done_n := fun _ _ => false,
    is_weights := fun _ => 1 }

/-- A configuration with warm-up threshold 5 for the C10 witness. -/
def cfgC10 : AlgoCfg :=
  { Vmin := 0, Vmax := 1, nAtoms := 2, discount := 1, nStepReturn := 1,
    jumps := 0, doubleDQN := false, prioritizedReplay := true,
    midBatchReset := true, detachModel := true, batchB := 1, numActions := 1,
    batchSize := 1, updatesPerOptimize := 1, minItrLearn := 5,
    targetUpdateInterval := 1 }

/-- A trivial sample batch for the C10 witness. -/
def samplesC10 : Samples Unit :=
  { all_observation := fun _ _ => (), all_action := fun _ _ => 0,
    all_reward := fun _ _ => 0, return_ := fun _ _ => 0,
    done := fun _ _ => false, done_n := fun _ _ => false,
    is_weights := fun _ => 1 }

/-- The initial driver state for the C10 witness. -/
def stC10 : DriverState Unit :=
  { bufferAppends := [], priorityUpdates := 0, optimizerSteps := 0,
    modelOptimizerSteps := 0, updateCounter := 0, targetUpdates := 0 }

/-- A non-mid-batch-reset configuration with batch size 2 for C6. -/
def cfgC6 : AlgoCfg :=
  { Vmin := 0, Vmax := 1, nAtoms := 2, discount := 1, nStepReturn := 1,
    jumps := 0, doubleDQN := false, prioritizedReplay := false,
    midBatchReset := false, detachModel := true, batchB := 2, numActions := 1,
    batchSize := 2, updatesPerOptimize := 1, minItrLearn := 0,
    targetUpdateInterval := 1 }

/-- A sample batch whose flag slice `done[1]` is set exactly at batch
position 0. -/
def samplesC6 : Samples Unit :=
  { all_observation := fun _ _ => (), all_action := fun _ _ => 0,
    all_reward := fun _ _ => 0, return_ := fun _ _ => 0,
    done := fun t b => t == 1 && b == 0, done_n := fun _ _ => false,
    is_weights := fun _ => 1 }

/-! ### Helper lemmas -/

lemma le_tclamp (x lo hi : ℚ) (h : lo ≤ hi) : lo ≤ tclamp x lo hi :=
  le_min (le_max_right x lo) h

lemma tclamp_le (x lo hi : ℚ) : tclamp x lo hi ≤ hi := min_le_right _ _

lemma tclamp_of_mem (x lo hi : ℚ) (h1 : lo ≤ x) (h2 : x ≤ hi) : tclamp x lo hi = x := by
  unfold tclamp
  rw [max_eq_left h1, min_eq_left h2]

lemma le_tclampR (x lo hi : ℝ) (h : lo ≤ hi) : lo ≤ tclampR x lo hi :=
  le_min (le_max_right x lo) h

lemma tclampR_le (x lo hi : ℝ) : tclampR x lo hi ≤ hi := min_le_right _ _

/-- Sum of the triangular kernel over indices entirely to the left of the
evaluation point `u`: every term vanishes. -/
lemma hat_sum_zero (u : ℚ) (n : ℕ) (h : (n : ℚ) ≤ u) :
    ∑ i in Finset.range n, max 0 (1 - |u - (i : ℚ)|) = 0 := by
  apply Finset.sum_eq_zero
  intro i hi
  have hi1 : (i : ℚ) + 1 ≤ (n : ℚ) := by
    exact_mod_cast Nat.succ_le_of_lt (Finset.mem_range.mp hi)
  have habs : 1 ≤ |u - (i : ℚ)| := by
    rw [abs_of_nonneg (by linarith)]
    linarith
  exact max_eq_left (by linarith)

/-- Partition of unity of the triangular (hat) kernel on the unit-spaced
grid `0, 1, ..., n-1`, for evaluation points inside the grid. -/
lemma hat_sum_one (n : ℕ) (hn : 1 ≤ n) (u : ℚ) (h0 : 0 ≤ u) (h1 : u ≤ (n : ℚ) - 1) :
    ∑ i in Finset.range n, max 0 (1 - |u - (i : ℚ)|) = 1 := by
  induction n with
  | zero => exact absurd hn (by norm_num)
  | succ m ih =>
    rcases Nat.eq_zero_or_pos m with hm | hm
    · subst hm
      have hu : u = 0 := le_antisymm (by push_cast at h1; linarith) h0
      subst hu
      simp
    · by_cases hcase : u ≤ (m : ℚ) - 1
      · rw [Finset.sum_range_succ, ih hm hcase]
        have habs : 1 ≤ |u - (m : ℚ)| := by
          rw [abs_of_nonpos (by linarith)]
          linarith
        rw [max_eq_left (by linarith), add_zero]
      · push_neg at hcase
        obtain ⟨k, rfl⟩ : ∃ k, m = k + 1 := ⟨m - 1, (Nat.succ_pred_eq_of_pos hm).symm⟩
        have hk : ((k : ℚ)) < u := by push_cast at hcase; linarith
        have hk1 : u ≤ (k : ℚ) + 1 := by push_cast at h1; linarith
        rw [Finset.sum_range_succ, Finset.sum_range_succ,
          hat_sum_zero u k (le_of_lt hk)]
        have ha1 : (0 : ℚ) ≤ u - (k : ℚ) := by linarith
        have ha2 : u - ((k : ℚ) + 1) ≤ 0 := by linarith
        have ht1 : max 0 (1 - |u - (k : ℚ)|) = 1 - (u - (k : ℚ)) := by
          rw [abs_of_nonneg ha1]
          exact max_eq_right (by linarith)
        have ht2 : max 0 (1 - |u - ((k : ℚ) + 1)|) = 1 + (u - ((k : ℚ) + 1)) := by
          rw [abs_of_nonpos ha2, max_eq_right (by linarith)]
          ring
        push_cast
        rw [ht1, ht2]
        ring

lemma deltaZ_pos (cfg : AlgoCfg) (h2 : 2 ≤ cfg.nAtoms) (hV : cfg.Vmin < cfg.Vmax) :
    0 < deltaZ cfg := by
  have h2q : (2 : ℚ) ≤ (cfg.nAtoms : ℚ) := by exact_mod_cast h2
  exact div_pos (by linarith) (by linarith)

/-- A projection coefficient against grid atom `i` is the hat kernel
evaluated at the normalized coordinate `(s - V_min) / delta_z`. -/
lemma projCoeff_eq_hat (cfg : AlgoCfg) (h2 : 2 ≤ cfg.nAtoms) (hV : cfg.Vmin < cfg.Vmax)
    (s : ℚ) (i : ℕ) :
    projCoeff cfg s (zAtom cfg i) =
      max 0 (1 - |(s - cfg.Vmin) / deltaZ cfg - (i : ℚ)|) := by
  have hΔ := deltaZ_pos cfg h2 hV
  have hrw : |s - zAtom cfg i| / deltaZ cfg =
      |(s - cfg.Vmin) / deltaZ cfg - (i : ℚ)| := by
    rw [show (s - cfg.Vmin) / deltaZ cfg - (i : ℚ) = (s - zAtom cfg i) / deltaZ cfg by
      unfold zAtom
      field_simp
      ring]
    rw [abs_div, abs_of_pos hΔ]
  unfold projCoeff tclamp
  rw [hrw]
  have hle : max (1 - |(s - cfg.Vmin) / deltaZ cfg - (i : ℚ)|) 0 ≤ 1 := by
    apply max_le _ (by norm_num)
    have := abs_nonneg ((s - cfg.Vmin) / deltaZ cfg - (i : ℚ))
    linarith
  rw [min_eq_left hle, max_comm]

/-- Each shifted source atom distributes exactly unit mass over the fixed
support: the projection coefficients against a point inside
`[V_min, V_max]` sum to 1. -/
lemma coeff_partition (cfg : AlgoCfg) (h2 : 2 ≤ cfg.nAtoms) (hV : cfg.Vmin < cfg.Vmax)
    (s : ℚ) (hs0 : cfg.Vmin ≤ s) (hs1 : s ≤ cfg.Vmax) :
    ∑ i in Finset.range cfg.nAtoms, projCoeff cfg s (zAtom cfg i) = 1 := by
  have hΔ := deltaZ_pos cfg h2 hV
  have hne : ((cfg.nAtoms : ℚ) - 1) ≠ 0 := by
    have h2q : (2 : ℚ) ≤ (cfg.nAtoms : ℚ) := by exact_mod_cast h2
    linarith
  rw [Finset.sum_congr rfl (fun i _ => projCoeff_eq_hat cfg h2 hV s i)]
  apply hat_sum_one cfg.nAtoms (by omega) _ (div_nonneg (by linarith) hΔ.le)
  rw [div_le_iff₀ hΔ]
  have : ((cfg.nAtoms : ℚ) - 1) * deltaZ cfg = cfg.Vmax - cfg.Vmin := by
    unfold deltaZ
    field_simp
  linarith [this]

lemma shiftedSupport_mem (cfg : AlgoCfg) (hV : cfg.Vmin ≤ cfg.Vmax)
    (dn : Bool) (ret : ℚ) (j : ℕ) :
    cfg.Vmin ≤ shiftedSupport cfg dn ret j ∧ shiftedSupport cfg dn ret j ≤ cfg.Vmax :=
  ⟨le_tclamp _ _ _ hV, tclamp_le _ _ _⟩

/-! ### Claim C4: projection mass conservation -/

/-- C4.  For every configuration with at least two atoms and
`V_min < V_max`, every termination flag, every n-step return, and every
nonnegative unprojected distribution summing to 1 over the support axis, the
projected target distribution again sums to 1 over the support axis — in
the exact-arithmetic embedding the sum is exactly 1, hence a fortiori
within the claimed floating-point tolerance `1e-5`. -/
theorem claim_C4_projection_mass_conservation (cfg : AlgoCfg) (dn : Bool) (ret : ℚ)
    (unproj : ℕ → ℚ) (h2 : 2 ≤ cfg.nAtoms) (hV : cfg.Vmin < cfg.Vmax)
    (hnn : ∀ j < cfg.nAtoms, 0 ≤ unproj j)
    (hsum : ∑ j in Finset.range cfg.nAtoms, unproj j = 1) :
    ∑ i in Finset.range cfg.nAtoms, projectDist cfg dn ret unproj i = 1 ∧
      |(∑ i in Finset.range cfg.nAtoms, projectDist cfg dn ret unproj i) - 1| ≤ 1 / 100000 := by
  have key : ∑ i in Finset.range cfg.nAtoms, projectDist cfg dn ret unproj i = 1 := by
    unfold projectDist
    rw [Finset.sum_comm]
    have hterm : ∀ j ∈ Finset.range cfg.nAtoms,
        (∑ i in Finset.range cfg.nAtoms,
          projCoeff cfg (shiftedSupport cfg dn ret j) (zAtom cfg i) * unproj j) = unproj j := by
      intro j _
      rw [← Finset.sum_mul]
      obtain ⟨hm1, hm2⟩ := shiftedSupport_mem cfg (le_of_lt hV) dn ret j
      rw [coeff_partition cfg h2 hV _ hm1 hm2, one_mul]
    rw [Finset.sum_congr rfl hterm, hsum]
  refine ⟨key, ?_⟩
  rw [key]
  norm_num

/-- Witness for C4: a concrete two-atom configuration and the uniform
distribution. -/
theorem claim_C4_witness :
    (2 ≤ 2 ∧ (-10 : ℚ) < 10 ∧ (∀ j < 2, 0 ≤ (fun _ : ℕ => (1 : ℚ)/2) j) ∧
      ∑ j in Finset.range 2, (fun _ : ℕ => (1 : ℚ)/2) j = 1) ∧
    (∑ i in Finset.range 2, projectDist
      { Vmin := -10, Vmax := 10, nAtoms := 2, discount := 99/100, nStepReturn := 1,
        jumps := 0, doubleDQN := false, prioritizedReplay := false,
        midBatchReset := true, detachModel := true, batchB := 1, numActions := 1,
        batchSize := 1, updatesPerOptimize := 1, minItrLearn := 0,
        targetUpdateInterval := 1 } false 1 (fun _ => 1/2) i = 1 ∧
     |(∑ i in Finset.range 2, projectDist
      { Vmin := -10, Vmax := 10, nAtoms := 2, discount := 99/100, nStepReturn := 1,
        jumps := 0, doubleDQN := false, prioritizedReplay := false,
        midBatchReset := true, detachModel := true, batchB := 1, numActions := 1,
        batchSize := 1, updatesPerOptimize := 1, minItrLearn := 0,
        targetUpdateInterval := 1 } false 1 (fun _ => 1/2) i) - 1| ≤ 1 / 100000) :=
  ⟨⟨by norm_num, by norm_num, fun j _ => by norm_num, by
      rw [Finset.sum_range_succ, Finset.sum_range_succ]; norm_num⟩,
    claim_C4_projection_mass_conservation _ false 1 _ (by norm_num) (by norm_num)
      (fun j _ => by norm_num)
      (by rw [Finset.sum_range_succ, Finset.sum_range_succ]; norm_num)⟩

/-! ### Claim C5: the end-to-end projection scenario -/

/-- C5.  With the scenario configuration, `return_n = 1`, `done_n = 0` and a
one-hot unprojected target at support index 5 (value 0), the projection
yields weight `1/2` at index 5 and `1/2` at index 6 (value 2) and zero at
every other index of the support. -/
theorem claim_C5_end_to_end_projection :
    (List.range 11).map (projectDist cfgC5 false 1 (fun j => if j = 5 then 1 else 0)) =
      [0, 0, 0, 0, 0, 1/2, 1/2, 0, 0, 0, 0] := by
  norm_num [List.range_succ, projectDist, projCoeff, shiftedSupport, zAtom, deltaZ, tclamp,
    indQ, cfgC5, Finset.sum_range_succ, abs, max_def, min_def]

/-! ### Claim C1: the unresolved name `F` -/

lemma F_not_in_scope : modelLossNameInScope "F" = false := by decide

/-- C1.  For every configuration (any `jumps`, including 0) and every sample
batch, `PizeroModelCategoricalDQN.loss` raises `NameError` at the step-0
reward-prediction term: the name `F` referenced by the `F.log_softmax` call
(line 280) is bound neither among the locals of `loss` nor among the module
globals of `rlpyt_algos.py` nor among the builtins, so the call never
produces a `(rl_loss, KL, model_loss)` triple. -/
theorem claim_C1_loss_raises_nameError {Obs Latent : Type} (cfg : AlgoCfg)
    (agent : AgentModel Obs Latent) (s : Samples Obs) :
    modelLossNameInScope "F" = false ∧
      modelLoss cfg agent s = Except.error (PyErr.nameError "F") := by
  refine ⟨F_not_in_scope, ?_⟩
  unfold modelLoss
  rw [F_not_in_scope]
  simp

/-! ### Claim C2: the jump-loop reward target -/

/-- C2 (divergence).  At jump `j = 1` on `samplesC2`, the categorical reward
target the jump loop builds (line 296, from `samples.all_reward[0]`) puts
mass 0 on the support point `+1` (index 2), whereas the target built from
the actual reward at offset 1 — what the claim and spec section 4.3 step 5
prescribe — puts mass 1 there; the two rewards indeed differ. -/
theorem claim_C2_jump_target_uses_step0_reward :
    jumpRewardTarget samplesC2 1 0 2 = 0 ∧
      to_categorical (samplesC2.all_reward 1 0) 1 2 = 1 ∧
      samplesC2.all_reward 1 0 ≠ samplesC2.all_reward 0 0 := by
  refine ⟨?_, ?_, by norm_num [samplesC2]⟩
  · norm_num [jumpRewardTarget, to_categorical, tclamp, samplesC2, abs, max_def, min_def]
  · norm_num [to_categorical, tclamp, samplesC2, abs, max_def, min_def]

/-! ### Claim C3: the `prioritize_replay` attribute -/

/-- C3 (divergence).  The jump loop's importance-weight selection (line 293)
reads the attribute `prioritize_replay`, which is not among the attributes
bound on the algorithm instance — for every configuration and sample batch
the selection raises `AttributeError` — while the attribute the claim (and
the rest of the file) uses, `prioritized_replay`, is bound. -/
theorem claim_C3_jump_isweights_attribute_error {Obs : Type} (cfg : AlgoCfg)
    (s : Samples Obs) :
    jumpIsWeights cfg s = Except.error (PyErr.attributeError "prioritize_replay") ∧
      algoAttrNames.contains "prioritized_replay" = true := by
  constructor
  · unfold jumpIsWeights
    rw [show algoAttrNames.contains "prioritize_replay" = false from by decide]
    simp
  · decide

/-! ### Claim C7: the KL statistic and its clamps -/

/-- C7 (counterexample).  `tKL` and `pKL` are valid distributions over two
atoms (nonnegative, summing to 1), yet the KL statistic computed by the
code before its final clamp is negative on them: the NaN-guard clamp lifts
`pKL`'s zero atom to `EPS`, leaving `(1 - EPS) * log (1 - EPS) < 0` — the
situation the source comment `# Avoid <0 from NaN-guard.` (line 113)
acknowledges. -/
theorem claim_C7_counterexample :
    tKL 0 + tKL 1 = 1 ∧ 0 ≤ tKL 0 ∧ 0 ≤ tKL 1 ∧
      pKL 0 + pKL 1 = 1 ∧ 0 ≤ pKL 0 ∧ 0 ≤ pKL 1 ∧
      klStatPre 2 tKL (fun i => tclamp (pKL i) EPS 1) < 0 := by
  refine ⟨by norm_num [tKL, EPS], by norm_num [tKL, EPS], by norm_num [tKL, EPS],
    by norm_num [pKL], by norm_num [pKL], by norm_num [pKL], ?_⟩
  unfold klStatPre
  rw [Finset.sum_range_succ, Finset.sum_range_succ, Finset.sum_range_zero]
  norm_num [tKL, pKL, tclamp, EPS, max_def, min_def]
  have hx : (0 : ℝ) < 999999 / 1000000 := by norm_num
  have hlog : Real.log (999999 / 1000000) < 0 := Real.log_neg hx (by norm_num)
  nlinarith [hlog, hx]

/-- C7 (amended).  When both distributions are valid and all their entries
already lie in `[EPS, 1]` (so that the NaN-guard clamps are the identity),
the pre-clamp KL statistic is nonnegative (Gibbs' inequality); and
unconditionally the value produced by the final clamping step lies in
`[EPS, 1/EPS]`. -/
theorem claim_C7_kl_bounds (n : ℕ) (t p : ℕ → ℚ)
    (ht : ∀ i < n, EPS ≤ t i ∧ t i ≤ 1) (hp : ∀ i < n, EPS ≤ p i ∧ p i ≤ 1)
    (hts : ∑ i in Finset.range n, t i = 1) (hps : ∑ i in Finset.range n, p i = 1) :
    0 ≤ klStatPre n t p ∧
      ((EPS : ℚ) : ℝ) ≤ klStatClamped n t p ∧
      klStatClamped n t p ≤ 1 / ((EPS : ℚ) : ℝ) := by
  have hEPS : (0 : ℚ) < EPS := by norm_num [EPS]
  have hid : ∀ i ∈ Finset.range n,
      ((tclamp (t i) EPS 1 : ℚ) : ℝ) *
        (Real.log ((tclamp (t i) EPS 1 : ℚ) : ℝ) - Real.log ((p i : ℚ) : ℝ)) =
      ((t i : ℚ) : ℝ) * (Real.log ((t i : ℚ) : ℝ) - Real.log ((p i : ℚ) : ℝ)) := by
    intro i hi
    rw [tclamp_of_mem _ _ _ (ht i (Finset.mem_range.mp hi)).1 (ht i (Finset.mem_range.mp hi)).2]
  have hpre : klStatPre n t p =
      ∑ i in Finset.range n,
        ((t i : ℚ) : ℝ) * (Real.log ((t i : ℚ) : ℝ) - Real.log ((p i : ℚ) : ℝ)) := by
    unfold klStatPre
    exact Finset.sum_congr rfl hid
  have hnonneg : 0 ≤ klStatPre n t p := by
    rw [hpre]
    have hterm : ∀ i ∈ Finset.range n,
        ((t i : ℚ) : ℝ) * (Real.log ((p i : ℚ) : ℝ) - Real.log ((t i : ℚ) : ℝ)) ≤
          ((p i : ℚ) : ℝ) - ((t i : ℚ) : ℝ) := by
      intro i hi
      have hti : (0 : ℝ) < ((t i : ℚ) : ℝ) := by
        have := (ht i (Finset.mem_range.mp hi)).1
        exact_mod_cast lt_of_lt_of_le hEPS this
      have hpi : (0 : ℝ) < ((p i : ℚ) : ℝ) := by
        have := (hp i (Finset.mem_range.mp hi)).1
        exact_mod_cast lt_of_lt_of_le hEPS this
      have hdiv : (0 : ℝ) < ((p i : ℚ) : ℝ) / ((t i : ℚ) : ℝ) := div_pos hpi hti
      have hlog : Real.log (((p i : ℚ) : ℝ) / ((t i : ℚ) : ℝ)) ≤
          ((p i : ℚ) : ℝ) / ((t i : ℚ) : ℝ) - 1 := Real.log_le_sub_one_of_pos hdiv
      rw [Real.log_div (ne_of_gt hpi) (ne_of_gt hti)] at hlog
      have := mul_le_mul_of_nonneg_left hlog (le_of_lt hti)
      calc ((t i : ℚ) : ℝ) * (Real.log ((p i : ℚ) : ℝ) - Real.log ((t i : ℚ) : ℝ))
          ≤ ((t i : ℚ) : ℝ) * (((p i : ℚ) : ℝ) / ((t i : ℚ) : ℝ) - 1) := this
        _ = ((p i : ℚ) : ℝ) - ((t i : ℚ) : ℝ) := by field_simp
    have hsum := Finset.sum_le_sum hterm
    have htsR : ∑ i in Finset.range n, ((t i : ℚ) : ℝ) = 1 := by exact_mod_cast hts
    have hpsR : ∑ i in Finset.range n, ((p i : ℚ) : ℝ) = 1 := by exact_mod_cast hps
    have hrhs : ∑ i in Finset.range n, (((p i : ℚ) : ℝ) - ((t i : ℚ) : ℝ)) = 0 := by
      rw [Finset.sum_sub_distrib, htsR, hpsR]
      ring
    have hcomb : ∑ i in Finset.range n,
        ((t i : ℚ) : ℝ) * (Real.log ((p i : ℚ) : ℝ) - Real.log ((t i : ℚ) : ℝ)) ≤ 0 := by
      rw [← hrhs]
      exact hsum
    have heq : ∑ i in Finset.range n,
        ((t i : ℚ) : ℝ) * (Real.log ((t i : ℚ) : ℝ) - Real.log ((p i : ℚ) : ℝ)) =
        -(∑ i in Finset.range n,
          ((t i : ℚ) : ℝ) * (Real.log ((p i : ℚ) : ℝ) - Real.log ((t i : ℚ) : ℝ))) := by
      rw [← Finset.sum_neg_distrib]
      exact Finset.sum_congr rfl (fun i _ => by ring)
    rw [heq]
    linarith
  have hlohi : ((EPS : ℚ) : ℝ) ≤ 1 / ((EPS : ℚ) : ℝ) := by
    norm_num [EPS]
  exact ⟨hnonneg, le_tclampR _ _ _ hlohi, tclampR_le _ _ _⟩

/-- Witness for C7: both distributions uniform on two atoms. -/
theorem claim_C7_witness :
    ((∀ i < 2, EPS ≤ (fun _ : ℕ => (1 : ℚ)/2) i ∧ (fun _ : ℕ => (1 : ℚ)/2) i ≤ 1) ∧
      ∑ i in Finset.range 2, (fun _ : ℕ => (1 : ℚ)/2) i = 1) ∧
    (0 ≤ klStatPre 2 (fun _ => 1/2) (fun _ => 1/2) ∧
      ((EPS : ℚ) : ℝ) ≤ klStatClamped 2 (fun _ => 1/2) (fun _ => 1/2) ∧
      klStatClamped 2 (fun _ => 1/2) (fun _ => 1/2) ≤ 1 / ((EPS : ℚ) : ℝ)) :=
  ⟨⟨fun i _ => ⟨by norm_num [EPS], by norm_num⟩,
      by rw [Finset.sum_range_succ, Finset.sum_range_succ]; norm_num⟩,
    claim_C7_kl_bounds 2 (fun _ => 1/2) (fun _ => 1/2)
      (fun i _ => ⟨by norm_num [EPS], by norm_num⟩)
      (fun i _ => ⟨by norm_num [EPS], by norm_num⟩)
      (by rw [Finset.sum_range_succ, Finset.sum_range_succ]; norm_num)
      (by rw [Finset.sum_range_succ, Finset.sum_range_succ]; norm_num)⟩

/-! ### Claim C8: double-DQN vs standard action selection -/

lemma argmax_foldl_aux (f : ℕ → ℚ) (l : List ℕ) (acc : ℕ) :
    ((l.foldl (fun b a => if f b < f a then a else b) acc) = acc ∨
      (l.foldl (fun b a => if f b < f a then a else b) acc) ∈ l) ∧
    f acc ≤ f (l.foldl (fun b a => if f b < f a then a else b) acc) ∧
    ∀ a ∈ l, f a ≤ f (l.foldl (fun b a => if f b < f a then a else b) acc) := by
  induction l generalizing acc with
  | nil => simp
  | cons x xs ih =>
    simp only [List.foldl_cons]
    obtain ⟨hmem, hacc, hall⟩ := ih (if f acc < f x then x else acc)
    refine ⟨?_, ?_, ?_⟩
    · rcases hmem with h | h
      · by_cases hc : f acc < f x
        · right
          rw [h, if_pos hc]
          exact List.mem_cons_self x xs
        · left
          rw [h, if_neg hc]
      · right
        exact List.mem_cons_of_mem x h
    · refine le_trans ?_ hacc
      by_cases hc : f acc < f x
      · rw [if_pos hc]
        exact le_of_lt hc
      · rw [if_neg hc]
    · intro a ha
      rcases List.mem_cons.mp ha with rfl | ha2
      · refine le_trans ?_ hacc
        by_cases hc : f acc < f a
        · rw [if_pos hc]
        · rw [if_neg hc]
          exact le_of_not_lt hc
      · exact hall a ha2

lemma argmaxIdx_lt (n : ℕ) (hn : 0 < n) (f : ℕ → ℚ) : argmaxIdx n f < n := by
  obtain ⟨hmem, -, -⟩ := argmax_foldl_aux f (List.range n) 0
  unfold argmaxIdx
  rcases hmem with h | h
  · rw [h]
    exact hn
  · exact List.mem_range.mp h

lemma argmaxIdx_is_max (n : ℕ) (f : ℕ → ℚ) : ∀ a < n, f a ≤ f (argmaxIdx n f) := by
  intro a ha
  obtain ⟨-, -, hall⟩ := argmax_foldl_aux f (List.range n) 0
  exact hall a (List.mem_range.mpr ha)

/-- C8.  The selected next action is a valid action index; under
`double_dqn` it maximizes the live network's Q-values at the next state,
otherwise it maximizes the target network's Q-values; and in both cases
the distribution that is subsequently projected is the target network's
distribution at that action (the block sits inside `torch.no_grad()` in the
source, so no gradient flows through it). -/
theorem claim_C8_action_selection (cfg : AlgoCfg) (tps nps : ℕ → ℕ → ℕ → ℚ)
    (ret : ℕ → ℚ) (dn : ℕ → Bool) (b : ℕ) (hA : 0 < cfg.numActions) :
    coreNextA cfg tps nps b < cfg.numActions ∧
    (cfg.doubleDQN = true → ∀ a < cfg.numActions,
      qValueOf cfg (nps b a) ≤ qValueOf cfg (nps b (coreNextA cfg tps nps b))) ∧
    (cfg.doubleDQN = false → ∀ a < cfg.numActions,
      qValueOf cfg (tps b a) ≤ qValueOf cfg (tps b (coreNextA cfg tps nps b))) ∧
    coreTargetP cfg tps nps ret dn b =
      projectDist cfg (dn b) (ret b) (fun j => tps b (coreNextA cfg tps nps b) j) := by
  refine ⟨?_, ?_, ?_, rfl⟩
  · unfold coreNextA
    cases hd : cfg.doubleDQN
    · simp only [hd, Bool.false_eq_true, if_false]
      exact argmaxIdx_lt _ hA _
    · simp only [hd, if_true]
      exact argmaxIdx_lt _ hA _
  · intro hd a ha
    unfold coreNextA
    simp only [hd, if_true]
    exact argmaxIdx_is_max cfg.numActions (fun x => qValueOf cfg (nps b x)) a ha
  · intro hd a ha
    unfold coreNextA
    simp only [hd, Bool.false_eq_true, if_false]
    exact argmaxIdx_is_max cfg.numActions (fun x => qValueOf cfg (tps b x)) a ha

/-- Witness for C8 at a synthetic batch where live and target networks
disagree on the greedy action. -/
theorem claim_C8_witness :
    0 < cfgC8.numActions ∧
    (coreNextA cfgC8 tpsC8 npsC8 0 < cfgC8.numActions ∧
    (cfgC8.doubleDQN = true → ∀ a < cfgC8.numActions,
      qValueOf cfgC8 (npsC8 0 a) ≤ qValueOf cfgC8 (npsC8 0 (coreNextA cfgC8 tpsC8 npsC8 0))) ∧
    (cfgC8.doubleDQN = false → ∀ a < cfgC8.numActions,
      qValueOf cfgC8 (tpsC8 0 a) ≤ qValueOf cfgC8 (tpsC8 0 (coreNextA cfgC8 tpsC8 npsC8 0))) ∧
    coreTargetP cfgC8 tpsC8 npsC8 (fun _ => 0) (fun _ => false) 0 =
      projectDist cfgC8 false 0 (fun j => tpsC8 0 (coreNextA cfgC8 tpsC8 npsC8 0) j)) :=
  ⟨by norm_num [cfgC8],
    claim_C8_action_selection cfgC8 tpsC8 npsC8 (fun _ => 0) (fun _ => false) 0
      (by norm_num [cfgC8])⟩

/-! ### Claim C9: importance weighting of the loss but not the KL -/

/-- C9.  Under prioritized replay the per-sample cross-entropy losses are
multiplied by the supplied importance weights before aggregation, while the
returned per-sample KL statistic does not depend on the importance weights
at all: replacing the batch's weight vector leaves the KL output of
`PizeroCategoricalDQN.loss` unchanged. -/
theorem claim_C9_importance_weights {Obs Latent : Type} (cfg : AlgoCfg)
    (agent : AgentModel Obs Latent) (s : Samples Obs) (w wB : ℕ → ℚ)
    (hp : cfg.prioritizedReplay = true) :
    (∀ b, catWeightedLosses cfg agent s b =
      (s.is_weights b : ℝ) * catCeLosses cfg agent s b) ∧
    (catDQNLoss cfg agent { s with is_weights := w }).2 =
      (catDQNLoss cfg agent { s with is_weights := wB }).2 := by
  constructor
  · intro b
    unfold catWeightedLosses catCeLosses weightedCeLosses
    simp only [hp, if_true]
  · unfold catDQNLoss rlLossCore aggregate
    cases hm : cfg.midBatchReset
    · simp only [hm, Bool.false_eq_true, if_false]
    · simp only [hm, if_true]

/-- Witness for C9. -/
theorem claim_C9_witness :
    cfgC9.prioritizedReplay = true ∧
    ((∀ b, catWeightedLosses cfgC9 agentUnit samplesC9 b =
      (samplesC9.is_weights b : ℝ) * catCeLosses cfgC9 agentUnit samplesC9 b) ∧
    (catDQNLoss cfgC9 agentUnit { samplesC9 with is_weights := fun _ => 2 }).2 =
      (catDQNLoss cfgC9 agentUnit { samplesC9 with is_weights := fun _ => 3 }).2) :=
  ⟨rfl, claim_C9_importance_weights cfgC9 agentUnit samplesC9
    (fun _ => 2) (fun _ => 3) rfl⟩

/-! ### Claim C10: the warm-up early return of `optimize_agent` -/

/-- C10.  When the effective iteration (after the `sampler_itr` override) is
below `min_itr_learn`, `optimize_agent` returns an `OptInfo` whose three
lists are empty, performs no optimizer step, no priority update, no update-
counter increment and no target-network refresh — and any supplied new
samples have still been converted by `samples_to_buffer` and appended to
the replay buffer before the early return. -/
theorem claim_C10_warmup_early_return {Obs Latent SIn SB : Type} (cfg : AlgoCfg)
    (agent : AgentModel Obs Latent) (stb : SIn → SB) (sb : ℕ → Samples Obs)
    (gn : ℕ → ℝ) (itr : ℕ) (samplerItr : Option ℕ) (newSamples : Option SIn)
    (st : DriverState SB)
    (hwarm : samplerItr.getD itr < cfg.minItrLearn) :
    optimizeAgent cfg agent stb sb gn itr samplerItr newSamples st = Except.ok
      ({ bufferAppends := st.bufferAppends ++
             (match newSamples with | some ns => [stb ns] | none => []),
         priorityUpdates := st.priorityUpdates,
         optimizerSteps := st.optimizerSteps,
         modelOptimizerSteps := st.modelOptimizerSteps,
         updateCounter := st.updateCounter,
         targetUpdates := st.targetUpdates },
       { loss := [], gradNorm := [], tdAbsErr := [] }) := by
  unfold optimizeAgent
  cases newSamples <;> simp [hwarm] <;> rfl

/-- Witness for C10: iteration 3 with threshold 5, new samples supplied. -/
theorem claim_C10_witness :
    ((Option.none (α := ℕ)).getD 3 < cfgC10.minItrLearn) ∧
    optimizeAgent cfgC10 agentUnit (fun _ : Unit => ()) (fun _ => samplesC10)
      (fun _ => 0) 3 Option.none (Option.some ()) stC10 = Except.ok
      ({ bufferAppends := stC10.bufferAppends ++ [()],
         priorityUpdates := stC10.priorityUpdates,
         optimizerSteps := stC10.optimizerSteps,
         modelOptimizerSteps := stC10.modelOptimizerSteps,
         updateCounter := stC10.updateCounter,
         targetUpdates := stC10.targetUpdates },
       { loss := [], gradNorm := [], tdAbsErr := [] }) :=
  ⟨by norm_num [cfgC10],
    claim_C10_warmup_early_return cfgC10 agentUnit (fun _ : Unit => ())
      (fun _ => samplesC10) (fun _ => 0) 3 Option.none (Option.some ()) stC10
      (by norm_num [cfgC10])⟩

/-! ### Claim C6: masking by the valid mask -/

/-- With the first set flag at position `k`, the rlpyt valid mask is 1 at
every position up to and including `k` and 0 strictly after `k`. -/
lemma valid_from_done_first (done : ℕ → Bool) (k : ℕ) (hk : done k = true)
    (hfirst : ∀ s < k, done s = false) (t : ℕ) :
    valid_from_done done t = if t ≤ k then 1 else 0 := by
  unfold valid_from_done
  rcases Nat.eq_zero_or_pos t with rfl | ht
  · simp
  · rw [if_neg (Nat.pos_iff_ne_zero.mp ht)]
    by_cases htk : t ≤ k
    · have hz : ∑ s in Finset.range t, indQ (done s) = 0 := by
        apply Finset.sum_eq_zero
        intro s hs
        have hsk : s < k := lt_of_lt_of_le (Finset.mem_range.mp hs) htk
        simp [indQ, hfirst s hsk]
      rw [hz, if_pos htk]
      norm_num
    · push_neg at htk
      have hone : (1 : ℚ) ≤ ∑ s in Finset.range t, indQ (done s) := by
        have hmem : k ∈ Finset.range t := Finset.mem_range.mpr htk
        have hkq : indQ (done k) = 1 := by simp [indQ, hk]
        calc (1 : ℚ) = indQ (done k) := hkq.symm
          _ ≤ ∑ s in Finset.range t, indQ (done s) :=
            Finset.single_le_sum (f := fun s => indQ (done s))
              (fun s _ => by simp only [indQ]; split <;> norm_num) hmem
      rw [min_eq_left hone, if_neg (not_le.mpr htk)]
      norm_num

/-- Truncating a sum of terms that vanish past `k`. -/
lemma sum_ite_range_trunc (B k : ℕ) (hkB : k < B) (f : ℕ → ℝ) :
    ∑ b in Finset.range B, (if b ≤ k then f b else 0) =
      ∑ b in Finset.range (k + 1), f b := by
  rw [← Finset.sum_subset (Finset.range_subset.mpr hkB)
    (fun b _ hb => if_neg (fun hle => hb (Finset.mem_range.mpr (Nat.lt_succ_of_le hle))))]
  exact Finset.sum_congr rfl
    (fun b hb => if_pos (Nat.lt_succ_iff.mp (Finset.mem_range.mp hb)))

/-- Taking `valid_mean` against the mask with first flag at `k < B` gives the mean of
the first `k + 1` entries. -/
lemma validMean_first (B k : ℕ) (hkB : k < B) (x : ℕ → ℝ) (done : ℕ → Bool)
    (hk : done k = true) (hfirst : ∀ s < k, done s = false) :
    validMean B x (valid_from_done done) =
      (∑ b in Finset.range (k + 1), x b) / ((k : ℝ) + 1) := by
  unfold validMean
  have hnum : ∑ b in Finset.range B, x b * ((valid_from_done done b : ℚ) : ℝ) =
      ∑ b in Finset.range (k + 1), x b := by
    rw [Finset.sum_congr rfl (fun b _ => by
      rw [valid_from_done_first done k hk hfirst b, apply_ite (fun q : ℚ => (q : ℝ)),
        Rat.cast_one, Rat.cast_zero, mul_ite, mul_one, mul_zero])]
    exact sum_ite_range_trunc B k hkB x
  have hden : ∑ b in Finset.range B, ((valid_from_done done b : ℚ) : ℝ) =
      (k : ℝ) + 1 := by
    rw [Finset.sum_congr rfl (fun b _ => by
      rw [valid_from_done_first done k hk hfirst b, apply_ite (fun q : ℚ => (q : ℝ)),
        Rat.cast_one, Rat.cast_zero])]
    rw [sum_ite_range_trunc B k hkB (fun _ => (1 : ℝ)), Finset.sum_const,
      Finset.card_range, nsmul_eq_mul, mul_one]
    push_cast
    ring
  rw [hnum, hden]

/-- Unfolding: `PizeroCategoricalDQN.loss` is the aggregation of its weighted losses
and clamped KL vector over the batch-level flag slice `samples.done[1]`. -/
lemma catDQNLoss_unfold {Obs Latent : Type} (cfg : AlgoCfg)
    (agent : AgentModel Obs Latent) (s : Samples Obs) :
    catDQNLoss cfg agent s = aggregate cfg (catWeightedLosses cfg agent s)
      (catKlClamped cfg agent s) (fun b => s.done 1 b) := rfl

/-- C6 (counterexample).  The claim says the returned KL vector is zero *at*
the first terminal position; but on `samplesC6` (first and only set flag at
position 0, `mid_batch_reset = false`) the KL returned by the loss at
position 0 is nonzero — the valid mask keeps the flagged position itself,
and the KL statistic there is clamped to at least `EPS > 0`. -/
theorem claim_C6_counterexample :
    samplesC6.done 1 0 = true ∧ (catDQNLoss cfgC6 agentUnit samplesC6).2 0 ≠ 0 := by
  refine ⟨rfl, ?_⟩
  have heq : (catDQNLoss cfgC6 agentUnit samplesC6).2 0 =
      catKlClamped cfgC6 agentUnit samplesC6 0 *
        ((valid_from_done (fun b => samplesC6.done 1 b) 0 : ℚ) : ℝ) := rfl
  rw [heq]
  have hlo : ((EPS : ℚ) : ℝ) ≤ catKlClamped cfgC6 agentUnit samplesC6 0 := by
    unfold catKlClamped klVector klStatClamped
    apply le_tclampR
    norm_num [EPS]
  have hpos : (0 : ℝ) < catKlClamped cfgC6 agentUnit samplesC6 0 :=
    lt_of_lt_of_le (by norm_num [EPS]) hlo
  have hv : ((valid_from_done (fun b => samplesC6.done 1 b) 0 : ℚ) : ℝ) = 1 := by
    norm_num [valid_from_done]
  rw [hv, mul_one]
  exact ne_of_gt hpos

/-- C6 (amended).  With `mid_batch_reset = false` and the first set flag of
the slice `samples.done[1]` at position `k < B`, the scalar loss is the mean
of the per-sample (weighted) losses over positions up to and *including*
`k`, and the returned KL vector equals the clamped KL statistic at positions
up to and including `k` and is zero strictly after `k`; with
`mid_batch_reset = true` the scalar loss is the plain mean over the whole
batch and the KL vector is returned unmasked. -/
theorem claim_C6_masking {Obs Latent : Type} (cfg : AlgoCfg)
    (agent : AgentModel Obs Latent) (s : Samples Obs) (k : ℕ)
    (hk : s.done 1 k = true) (hfirst : ∀ b < k, s.done 1 b = false)
    (hkB : k < cfg.batchB) :
    (cfg.midBatchReset = false →
      (catDQNLoss cfg agent s).1 =
        (∑ b in Finset.range (k + 1), catWeightedLosses cfg agent s b) / ((k : ℝ) + 1) ∧
      (∀ b ≤ k, (catDQNLoss cfg agent s).2 b = catKlClamped cfg agent s b) ∧
      (∀ b, k < b → (catDQNLoss cfg agent s).2 b = 0)) ∧
    (cfg.midBatchReset = true →
      (catDQNLoss cfg agent s).1 =
        (∑ b in Finset.range cfg.batchB, catWeightedLosses cfg agent s b) /
          (cfg.batchB : ℝ) ∧
      (catDQNLoss cfg agent s).2 = catKlClamped cfg agent s) := by
  rw [catDQNLoss_unfold]
  constructor
  · intro hmb
    unfold aggregate
    simp only [hmb, Bool.false_eq_true, if_false]
    refine ⟨validMean_first cfg.batchB k hkB _ _ hk hfirst, ?_, ?_⟩
    · intro b hb
      rw [valid_from_done_first _ k hk hfirst b, if_pos hb]
      norm_num
    · intro b hb
      rw [valid_from_done_first _ k hk hfirst b, if_neg (not_le.mpr hb)]
      norm_num
  · intro hmb
    unfold aggregate
    simp [hmb]

/-- Witness for C6 at `cfgC6` / `samplesC6` with `k = 0`. -/
theorem claim_C6_witness :
    (samplesC6.done 1 0 = true ∧ 0 < cfgC6.batchB) ∧
    ((cfgC6.midBatchReset = false →
      (catDQNLoss cfgC6 agentUnit samplesC6).1 =
        (∑ b in Finset.range (0 + 1), catWeightedLosses cfgC6 agentUnit samplesC6 b) /
          (((0 : ℕ) : ℝ) + 1) ∧
      (∀ b ≤ 0, (catDQNLoss cfgC6 agentUnit samplesC6).2 b =
        catKlClamped cfgC6 agentUnit samplesC6 b) ∧
      (∀ b, 0 < b → (catDQNLoss cfgC6 agentUnit samplesC6).2 b = 0)) ∧
    (cfgC6.midBatchReset = true →
      (catDQNLoss cfgC6 agentUnit samplesC6).1 =
        (∑ b in Finset.range cfgC6.batchB, catWeightedLosses cfgC6 agentUnit samplesC6 b) /
          (cfgC6.batchB : ℝ) ∧
      (catDQNLoss cfgC6 agentUnit samplesC6).2 = catKlClamped cfgC6 agentUnit samplesC6)) :=
  ⟨⟨rfl, by norm_num [cfgC6]⟩,
    claim_C6_masking cfgC6 agentUnit samplesC6 0 rfl (fun b hb => absurd hb (Nat.not_lt_zero b))
      (by norm_num [cfgC6])⟩

end SPR
